import Mathlib

/-!
Verification of the Garoon-Thai restaurant site's submission-reconciliation
core against its specification.

The development shallowly embeds the relevant TypeScript handlers:

* the tolerant JSON decode applied to the `business_hours` / `social_links`
  fields of `contact_info` (`src/components/Footer.tsx`, `fetchContactInfo`);
* the newsletter subscription handler (`handleSubscribe`, News page);
* the contact-form submission handler (`handleContactSubmit`, News page and
  `src/pages/About.tsx`);
* the admin operations `markAsRead`, `deleteSubscriber` and the two CSV
  exports (`ContactMessageManager.tsx`, `NewsletterSubscriberManager.tsx`).

Remote store calls go through the supabase query builder, which reports
failures in a returned `(data, error)` pair; a rejected write (e.g. by a
row-level-security policy) surfaces as a non-null `error` in that pair,
while a thrown exception is a separate failure channel caught by the
surrounding `try`/`catch`.  The embedding keeps the two channels distinct
(`RemoteOutcome.errResult` vs `RemoteOutcome.thrown`).
-/

/-- JSON values, as produced by `JSON.parse` / consumed by `JSON.stringify`.
Number literals are kept syntactically (their lexeme), since no code under
verification computes with JSON numbers. -/
inductive Json where
  | null : Json
  | bool : Bool → Json
  | num : String → Json
  | str : String → Json
  | arr : List Json → Json
  | obj : List (String × Json) → Json

/-- Lower-case hexadecimal digit, as in `JSON.stringify`'s `\u00xx` escapes. -/
def hexDig (n : Nat) : Char :=
  if n < 10 then Char.ofNat (48 + n) else Char.ofNat (87 + n)

/-- Escape of a single character inside a JSON string literal, following
`JSON.stringify`: quote and backslash get two-character escapes, the five
named control characters get their short escapes, all other control
characters get `\u00xx`, everything else is emitted verbatim. -/
def escChar (c : Char) : List Char :=
  if c = '"' then ['\\', '"']
  else if c = '\\' then ['\\', '\\']
  else if c = '\x08' then ['\\', 'b']
  else if c = '\x09' then ['\\', 't']
  else if c = '\x0a' then ['\\', 'n']
  else if c = '\x0c' then ['\\', 'f']
  else if c = '\x0d' then ['\\', 'r']
  else if c.toNat < 32 then ['\\', 'u', '0', '0', hexDig (c.toNat / 16), hexDig (c.toNat % 16)]
  else [c]

def escapeChars : List Char → List Char
  | [] => []
  | c :: cs => escChar c ++ escapeChars cs

/-- Encoding of a string value by `JSON.stringify` (the surrounding quotes included). -/
def encodeStringChars (s : String) : List Char :=
  '"' :: (escapeChars s.data ++ ['"'])

mutual
/-- Serialization as by `JSON.stringify` (no indentation), at the character-list level. -/
def encodeJson : Json → List Char
  | Json.null => ['n', 'u', 'l', 'l']
  | Json.bool true => ['t', 'r', 'u', 'e']
  | Json.bool false => ['f', 'a', 'l', 's', 'e']
  | Json.num raw => raw.data
  | Json.str s => encodeStringChars s
  | Json.arr xs => '[' :: (encodeArrItems xs ++ [']'])
  | Json.obj ms => '{' :: (encodeObjItems ms ++ ['}'])

def encodeArrItems : List Json → List Char
  | [] => []
  | [x] => encodeJson x
  | x :: xs => encodeJson x ++ ',' :: encodeArrItems xs

def encodeObjItems : List (String × Json) → List Char
  | [] => []
  | [(k, v)] => encodeStringChars k ++ ':' :: encodeJson v
  | (k, v) :: ms => encodeStringChars k ++ ':' :: encodeJson v ++ ',' :: encodeObjItems ms
end

def jsonEncode (j : Json) : String := String.mk (encodeJson j)

def isWsChar (c : Char) : Bool :=
  c = ' ' || c = '\x09' || c = '\x0a' || c = '\x0d'

def skipWs : List Char → List Char
  | [] => []
  | c :: cs => if isWsChar c then skipWs cs else c :: cs

def hexVal (c : Char) : Option Nat :=
  if '0' ≤ c ∧ c ≤ '9' then some (c.toNat - 48)
  else if 'a' ≤ c ∧ c ≤ 'f' then some (c.toNat - 87)
  else if 'A' ≤ c ∧ c ≤ 'F' then some (c.toNat - 55)
  else none

def unescapeChar (c : Char) : Option Char :=
  if c = '"' then some '"'
  else if c = '\\' then some '\\'
  else if c = '/' then some '/'
  else if c = 'b' then some '\x08'
  else if c = 'f' then some '\x0c'
  else if c = 'n' then some '\x0a'
  else if c = 'r' then some '\x0d'
  else if c = 't' then some '\x09'
  else none

/-- Parse the body of a JSON string literal (the opening quote already
consumed), returning the decoded characters and the remaining input.
Raw control characters are rejected, as in the JSON grammar. -/
def parseStringBody : List Char → Option (List Char × List Char)
  | [] => none
  | c :: rest =>
    if c = '"' then some ([], rest)
    else if c = '\\' then
      match rest with
      | [] => none
      | e :: rest2 =>
        if e = 'u' then
          match rest2 with
          | a :: b :: c2 :: d :: rest3 =>
            match hexVal a, hexVal b, hexVal c2, hexVal d with
            | some ha, some hb, some hc, some hd =>
              match parseStringBody rest3 with
              | some (chars, rem) =>
                some (Char.ofNat (((ha * 16 + hb) * 16 + hc) * 16 + hd) :: chars, rem)
              | none => none
            | _, _, _, _ => none
          | _ => none
        else
          match unescapeChar e with
          | some u =>
            match parseStringBody rest2 with
            | some (chars, rem) => some (u :: chars, rem)
            | none => none
          | none => none
    else if c.toNat < 32 then none
    else
      match parseStringBody rest with
      | some (chars, rem) => some (c :: chars, rem)
      | none => none

def takeDigits : List Char → List Char × List Char
  | [] => ([], [])
  | c :: cs =>
    if c.isDigit then
      let p := takeDigits cs
      (c :: p.1, p.2)
    else ([], c :: cs)

/-- Integer part of a JSON number: `0`, or a nonzero digit followed by
digits (leading zeros are a syntax error, as for `JSON.parse`). -/
def parseIntPart : List Char → Option (List Char × List Char)
  | [] => none
  | c :: cs =>
    if c = '0' then some (['0'], cs)
    else if c.isDigit then
      let p := takeDigits cs
      some (c :: p.1, p.2)
    else none

def parseFracPart (cs : List Char) : Option (List Char × List Char) :=
  match cs with
  | '.' :: cs2 =>
    let p := takeDigits cs2
    if p.1 = [] then none else some ('.' :: p.1, p.2)
  | _ => some ([], cs)

def parseExpPart (cs : List Char) : Option (List Char × List Char) :=
  match cs with
  | 'e' :: '+' :: cs2 =>
    let p := takeDigits cs2
    if p.1 = [] then none else some ('e' :: '+' :: p.1, p.2)
  | 'e' :: '-' :: cs2 =>
    let p := takeDigits cs2
    if p.1 = [] then none else some ('e' :: '-' :: p.1, p.2)
  | 'e' :: cs2 =>
    let p := takeDigits cs2
    if p.1 = [] then none else some ('e' :: p.1, p.2)
  | 'E' :: '+' :: cs2 =>
    let p := takeDigits cs2
    if p.1 = [] then none else some ('E' :: '+' :: p.1, p.2)
  | 'E' :: '-' :: cs2 =>
    let p := takeDigits cs2
    if p.1 = [] then none else some ('E' :: '-' :: p.1, p.2)
  | 'E' :: cs2 =>
    let p := takeDigits cs2
    if p.1 = [] then none else some ('E' :: p.1, p.2)
  | _ => some ([], cs)

/-- JSON number lexeme: `-? int frac? exp?`. -/
def parseNumber (cs : List Char) : Option (String × List Char) :=
  match cs with
  | '-' :: cs2 =>
    match parseIntPart cs2 with
    | none => none
    | some (ip, r1) =>
      match parseFracPart r1 with
      | none => none
      | some (fp, r2) =>
        match parseExpPart r2 with
        | none => none
        | some (ep, r3) => some (String.mk ('-' :: ip ++ fp ++ ep), r3)
  | _ =>
    match parseIntPart cs with
    | none => none
    | some (ip, r1) =>
      match parseFracPart r1 with
      | none => none
      | some (fp, r2) =>
        match parseExpPart r2 with
        | none => none
        | some (ep, r3) => some (String.mk (ip ++ fp ++ ep), r3)

mutual
/-- Recursive-descent JSON value parser.  The fuel argument bounds the
recursion; `jsonParse` supplies more fuel than any input can consume. -/
def parseVal : Nat → List Char → Option (Json × List Char)
  | 0, _ => none
  | fuel + 1, cs =>
    match skipWs cs with
    | 'n' :: 'u' :: 'l' :: 'l' :: rest => some (Json.null, rest)
    | 't' :: 'r' :: 'u' :: 'e' :: rest => some (Json.bool true, rest)
    | 'f' :: 'a' :: 'l' :: 's' :: 'e' :: rest => some (Json.bool false, rest)
    | '"' :: rest =>
      match parseStringBody rest with
      | some (chars, rem) => some (Json.str (String.mk chars), rem)
      | none => none
    | '[' :: rest =>
      match skipWs rest with
      | ']' :: rem => some (Json.arr [], rem)
      | cs2 =>
        match parseArrItems fuel cs2 with
        | some (xs, rem) => some (Json.arr xs, rem)
        | none => none
    | '{' :: rest =>
      match skipWs rest with
      | '}' :: rem => some (Json.obj [], rem)
      | cs2 =>
        match parseObjItems fuel cs2 with
        | some (ms, rem) => some (Json.obj ms, rem)
        | none => none
    | rest =>
      match parseNumber rest with
      | some (raw, rem) => some (Json.num raw, rem)
      | none => none

def parseArrItems : Nat → List Char → Option (List Json × List Char)
  | 0, _ => none
  | fuel + 1, cs =>
    match parseVal fuel cs with
    | none => none
    | some (v, rem) =>
      match skipWs rem with
      | ',' :: rem2 =>
        match parseArrItems fuel rem2 with
        | some (vs, rem3) => some (v :: vs, rem3)
        | none => none
      | ']' :: rem2 => some ([v], rem2)
      | _ => none

def parseObjItems : Nat → List Char → Option (List (String × Json) × List Char)
  | 0, _ => none
  | fuel + 1, cs =>
    match skipWs cs with
    | '"' :: rest =>
      match parseStringBody rest with
      | none => none
      | some (kchars, rem) =>
        match skipWs rem with
        | ':' :: rem2 =>
          match parseVal fuel rem2 with
          | none => none
          | some (v, rem3) =>
            match skipWs rem3 with
            | ',' :: rem4 =>
              match parseObjItems fuel rem4 with
              | some (ms, rem5) => some ((String.mk kchars, v) :: ms, rem5)
              | none => none
            | '}' :: rem4 => some ([(String.mk kchars, v)], rem4)
            | _ => none
        | _ => none
    | _ => none
end

/-- Model of `JSON.parse`: parse a complete value, allowing trailing whitespace only. -/
def jsonParse (s : String) : Option Json :=
  match parseVal (s.data.length + 2) s.data with
  | some (j, rest) => if skipWs rest = [] then some j else none
  | none => none

/-- JavaScript truthiness of a JSON value (`!x` in the source).  A numeric
zero lexeme without exponent is recognized as falsy. -/
def Json.truthy : Json → Bool
  | Json.null => false
  | Json.bool b => b
  | Json.num raw => !(raw.data.all fun c => c = '0' || c = '-' || c = '.')
  | Json.str s => !(s = "")
  | Json.arr _ => true
  | Json.obj _ => true

def Json.isString : Json → Bool
  | Json.str _ => true
  | _ => false

/-- The tolerant decode applied to `business_hours` and `social_links` in
`fetchContactInfo` (`Footer.tsx`), transcribing

`if (!x || typeof x === 'string') { try { x = typeof x === 'string' ? JSON.parse(x) : (x || \x7b\x7d); } catch { x = \x7b\x7d; } }`

A truthy non-string value passes through unchanged; a string is parsed with
the empty object substituted on parse failure; a falsy non-string value
(null column, etc.) becomes the empty object.  The function is total: no
input raises. -/
def decodeField (v : Json) : Json :=
  if !v.truthy || v.isString then
    match v with
    | Json.str s => (jsonParse s).getD (Json.obj [])
    | _ => Json.obj []
  else v

/-- A flat string-valued object: the shape of the `business_hours`
(`day ↦ hours` text) and `social_links` structures. -/
def strObj (ms : List (String × String)) : Json :=
  Json.obj (ms.map fun kv => (kv.1, Json.str kv.2))

/-! ## Data model: `member_subscriptions` and `contact_messages` rows -/

/-- A `member_subscriptions` row.  In the metadata-bag generation the
`metadata` column (a free-form JSON bag) carries contact-form fields. -/
structure MsRow where
  email : String
  is_subscribed : Bool
  subscribed_at : String
  metadata : Option Json

/-- An entry of the on-device fallback list stored under the
`newsletter_subscriptions` key (the shape pushed by `handleSubscribe`). -/
structure LocalSub where
  email : String
  is_subscribed : Bool
  subscribed_at : String
deriving DecidableEq, Repr

/-- A `contact_messages` row (dedicated-table generation; the columns the
handlers insert). -/
structure ContactRow where
  name : String
  email : String
  message : String
deriving DecidableEq, Repr

/-- Outcome of one awaited remote call: success, an error reported in the
returned `(data, error)` pair (how the query builder surfaces rejected
writes, e.g. row-level-security policy denials), or a thrown exception
caught by the surrounding `try`/`catch`. -/
inductive RemoteOutcome where
  | ok : RemoteOutcome
  | errResult : RemoteOutcome
  | thrown : RemoteOutcome
deriving DecidableEq, Repr

/-! ## Newsletter subscription (`handleSubscribe`, News page) -/

/-- The durable stores `handleSubscribe` can touch: the remote
`member_subscriptions` collection and the on-device fallback list. -/
structure SubscribeState where
  remote : List MsRow
  localSubs : List LocalSub

inductive SubToast where
  | invalidEmail : SubToast
  | subscribeFailed : SubToast
  | subscribeSuccess : SubToast
  | subscribeLocalSuccess : SubToast
  | alreadySubscribed : SubToast
  | localWriteFailed : SubToast
deriving DecidableEq, Repr

/-- Result of one `handleSubscribe` call: the stores afterwards, the toast
raised, and whether the remote insert was attempted. -/
structure SubResult where
  state : SubscribeState
  toast : SubToast
  remoteAttempted : Bool

/-- The `handleSubscribe` handler from the News page.  Control flow transcribed:
an email without `'@'` is rejected before any store is touched; the remote
insert's returned error (`dbError`) produces an error toast and returns
with no fallback; only a thrown exception reaches the `catch` block, which
reads the local list, reports a duplicate if an entry with the same email
exists, and otherwise appends and persists.  `localOk` models whether the
local-storage read/write itself succeeds (its own `try`/`catch`). -/
def handleSubscribe (email now : String) (outcome : RemoteOutcome) (localOk : Bool)
    (st : SubscribeState) : SubResult :=
  if email = "" || !(email.data.contains '@') then
    ⟨st, SubToast.invalidEmail, false⟩
  else
    match outcome with
    | RemoteOutcome.ok =>
      ⟨{ st with remote := st.remote ++ [⟨email, true, now, none⟩] },
        SubToast.subscribeSuccess, true⟩
    | RemoteOutcome.errResult =>
      ⟨st, SubToast.subscribeFailed, true⟩
    | RemoteOutcome.thrown =>
      if !localOk then ⟨st, SubToast.localWriteFailed, true⟩
      else if st.localSubs.any (fun sub => sub.email == email) then
        ⟨st, SubToast.alreadySubscribed, true⟩
      else
        ⟨{ st with localSubs := st.localSubs ++ [⟨email, true, now⟩] },
          SubToast.subscribeLocalSuccess, true⟩

/-- Count of persisted records with this email in subscribed state, across
both stores. -/
def subscribedCount (st : SubscribeState) (email : String) : Nat :=
  (st.remote.filter (fun r => r.email == email && r.is_subscribed)).length +
    (st.localSubs.filter (fun r => r.email == email && r.is_subscribed)).length

/-! ## Contact form (`handleContactSubmit`, News page and About page) -/

/-- Stores visible to the contact path: the remote `contact_messages`
table, and the on-device `contact_messages` list (read by the admin
dashboard; the dedicated-table handlers never write it). -/
structure ContactState where
  remote : List ContactRow
  localMessages : List ContactRow
deriving DecidableEq, Repr

inductive ContactToast where
  | missingInformation : ContactToast
  | invalidEmail : ContactToast
  | sendFailed : ContactToast
  | sentSuccess : ContactToast
  | savedLocalNotice : ContactToast
deriving DecidableEq, Repr

/-- Whether the toast is rendered with the destructive (error) variant. -/
def ContactToast.isErrorVariant : ContactToast → Bool
  | ContactToast.sentSuccess => false
  | _ => true

structure ContactResult where
  state : ContactState
  toast : ContactToast
  remoteAttempted : Bool
deriving DecidableEq, Repr

/-- The `handleContactSubmit` handler (News page, dedicated-table generation).
Validation: name, email and message must be non-empty, then the email must
contain `'@'`; only then is the remote insert attempted.  A returned
`dbError` produces an error toast; a thrown exception produces the
destructive "Message Saved" toast.  Neither failure branch writes
anywhere (the on-device message list is untouched on every path). -/
def handleContactSubmit (name email message : String) (outcome : RemoteOutcome)
    (st : ContactState) : ContactResult :=
  if name = "" || email = "" || message = "" then
    ⟨st, ContactToast.missingInformation, false⟩
  else if !(email.data.contains '@') then
    ⟨st, ContactToast.invalidEmail, false⟩
  else
    match outcome with
    | RemoteOutcome.ok =>
      ⟨{ st with remote := st.remote ++ [⟨name, email, message⟩] },
        ContactToast.sentSuccess, true⟩
    | RemoteOutcome.errResult => ⟨st, ContactToast.sendFailed, true⟩
    | RemoteOutcome.thrown => ⟨st, ContactToast.savedLocalNotice, true⟩

/-- JavaScript `String.prototype.trim`: strip whitespace from both ends. -/
def jsTrim (s : String) : String :=
  String.mk (((s.data.dropWhile fun c => isWsChar c).reverse.dropWhile
    fun c => isWsChar c).reverse)

/-- The `handleContactSubmit` handler from `About.tsx`: identical logic, with the name
assembled as `` `${firstName} ${lastName}`.trim() ``. -/
def handleContactSubmitAbout (firstName lastName email message : String)
    (outcome : RemoteOutcome) (st : ContactState) : ContactResult :=
  handleContactSubmit (jsTrim (firstName ++ " " ++ lastName)) email message outcome st

/-! ## Admin: mark-as-read (`ContactMessageManager.tsx`) -/

/-- Association lookup in a metadata bag (a JS object's field read). -/
def mlookup (m : List (String × Json)) (k : String) : Option Json :=
  match m.find? (fun kv => kv.1 == k) with
  | some kv => some kv.2
  | none => none

/-- Spread-with-override of the metadata bag: every key of the bag is kept,
with the value at `"status"` overwritten (or the key appended when it was
absent). -/
def setStatusRead (m : List (String × Json)) : List (String × Json) :=
  if m.any (fun kv => kv.1 == "status") then
    m.map (fun kv => if kv.1 == "status" then (kv.1, Json.str "read") else kv)
  else m ++ [("status", Json.str "read")]

/-- The text extraction `metadata->>type` performs on a JSON value. -/
def jsonText : Json → String
  | Json.str s => s
  | j => jsonEncode j

/-- The row filter shared by `markAsRead`'s fetch and update:
`.eq('email', …).eq('metadata->>type', 'contact_form').eq('subscribed_at', …)`. -/
def matchesKey (r : MsRow) (email ts : String) : Bool :=
  r.email == email &&
    (match r.metadata with
     | none => false
     | some m =>
       match m with
       | Json.obj fields =>
         (match mlookup fields "type" with
          | some j => jsonText j == "contact_form"
          | none => false)
       | _ => false) &&
    r.subscribed_at == ts

inductive MarkResult where
  | invalidData : MarkResult
  | fetchFailed : MarkResult
  | missingMetadata : MarkResult
  | updateFailed : MarkResult
  | success : MarkResult
deriving DecidableEq, Repr

/-- The admin `markAsRead` operation: guard on key fields, fetch the single matching
row (`.single()` fails when zero or several rows match), guard that its
metadata is a (truthy) object, then update the matching rows' metadata to
the spread-with-override bag.  `fetchErr` / `updateErr` inject remote
failures of the two round trips. -/
def markAsRead (db : List MsRow) (email ts : String) (fetchErr updateErr : Bool) :
    List MsRow × MarkResult :=
  if email = "" || ts = "" then (db, MarkResult.invalidData)
  else if fetchErr then (db, MarkResult.fetchFailed)
  else
    match db.filter (fun r => matchesKey r email ts) with
    | [row] =>
      match row.metadata with
      | some (Json.obj m) =>
        if updateErr then (db, MarkResult.updateFailed)
        else
          (db.map (fun r =>
            if matchesKey r email ts then
              { r with metadata := some (Json.obj (setStatusRead m)) }
            else r), MarkResult.success)
      | _ => (db, MarkResult.missingMetadata)
    | _ => (db, MarkResult.fetchFailed)

/-! ## Admin: delete subscriber (`NewsletterSubscriberManager.tsx`) -/

/-- The admin `deleteSubscriber` operation: a remote delete keyed by
`.eq('email', subscriber.email)` alone.  Returns the collection afterwards
and whether the delete succeeded (`dbErr` injects a returned error, which
leaves the collection unchanged). -/
def deleteSubscriber (db : List MsRow) (subscriberEmail : String) (dbErr : Bool) :
    List MsRow × Bool :=
  if dbErr then (db, false)
  else (db.filter (fun r => !(r.email == subscriberEmail)), true)

/-! ## Admin: CSV exports -/

/-- One data row of the subscribers export, exactly as built in
`exportSubscribers`: each field wrapped in double quotes with no escaping,
joined by commas. -/
def subscriberCsvRow (sub : LocalSub) : String :=
  "\"" ++ sub.email ++ "\",\"" ++
    (if sub.is_subscribed then "Subscribed" else "Unsubscribed") ++ "\",\"" ++
    sub.subscribed_at ++ "\""

/-- The `exportSubscribers` CSV content (without the `data:` URI wrapper): header line,
then the data rows joined with `"\n"`. -/
def exportSubscribersCsv (subs : List LocalSub) : String :=
  "Email,Subscription Status,Subscribed Date\n" ++
    String.intercalate "\n" (subs.map subscriberCsvRow)

/-- The decoded message shape the admin list holds in memory. -/
structure AdminMessage where
  name : String
  email : String
  subject : String
  message : String
  timestamp : String
  status : String
deriving DecidableEq, Repr

/-- One data row of the messages export, exactly as built in
`exportMessages`. -/
def messageCsvRow (msg : AdminMessage) : String :=
  "\"" ++ msg.name ++ "\",\"" ++ msg.email ++ "\",\"" ++ msg.subject ++ "\",\"" ++
    msg.message ++ "\",\"" ++ msg.timestamp ++ "\",\"" ++ msg.status ++ "\""

/-- The `exportMessages` CSV content (without the `data:` URI wrapper). -/
def exportMessagesCsv (msgs : List AdminMessage) : String :=
  "Name,Email,Subject,Message,Timestamp,Status\n" ++
    String.intercalate "\n" (msgs.map messageCsvRow)

/-- A CSV field as the specification describes it: the value wrapped in
double quotes, verbatim (no escaping of embedded quotes or newlines). -/
def specQuoted (field : String) : String := "\"" ++ field ++ "\""

/-- A data row as the specification describes it: quoted fields joined by
commas. -/
def specCsvRow (fields : List String) : String :=
  String.intercalate "," (fields.map specQuoted)

/-- A CSV document with newline-SEPARATED data rows (the final row carries
no trailing newline). -/
def specCsvSeparated (header : String) (rows : List String) : String :=
  header ++ "\n" ++ String.intercalate "\n" rows

/-- A CSV document in which every data row is newline-TERMINATED, as the
claim under test states it. -/
def specCsvTerminated (header : String) (rows : List String) : String :=
  header ++ "\n" ++ String.join (rows.map (fun r => r ++ "\n"))

/-! ## Lemmas: JSON string escape round trip -/

theorem hexVal_hexDig (n : Nat) (h : n < 16) : hexVal (hexDig n) = some n := by
  interval_cases n <;> rfl


theorem parseStringBody_escape (s : List Char) (rest : List Char) :
    parseStringBody (escapeChars s ++ '"' :: rest) = some (s, rest) := by
  induction s with
  | nil =>
    simp only [escapeChars, List.nil_append]
    rw [parseStringBody.eq_def]
    simp
  | cons c cs ih =>
    by_cases h1 : c = '"'
    · subst h1
      have hesc : escapeChars ('"' :: cs) ++ '"' :: rest =
          '\\' :: '"' :: (escapeChars cs ++ '"' :: rest) := by
        simp [escapeChars, escChar]
      rw [hesc, parseStringBody.eq_def]
      simp [unescapeChar, ih]
    by_cases h2 : c = '\\'
    · subst h2
      have hesc : escapeChars ('\\' :: cs) ++ '"' :: rest =
          '\\' :: '\\' :: (escapeChars cs ++ '"' :: rest) := by
        simp [escapeChars, escChar]
      rw [hesc, parseStringBody.eq_def]
      simp [unescapeChar, ih]
    by_cases h3 : c = '\x08'
    · subst h3
      have hesc : escapeChars ('\x08' :: cs) ++ '"' :: rest =
          '\\' :: 'b' :: (escapeChars cs ++ '"' :: rest) := by
        simp [escapeChars, escChar]
      rw [hesc, parseStringBody.eq_def]
      simp [unescapeChar, ih]
    by_cases h4 : c = '\x09'
    · subst h4
      have hesc : escapeChars ('\x09' :: cs) ++ '"' :: rest =
          '\\' :: 't' :: (escapeChars cs ++ '"' :: rest) := by
        simp [escapeChars, escChar]
      rw [hesc, parseStringBody.eq_def]
      simp [unescapeChar, ih]
    by_cases h5 : c = '\x0a'
    · subst h5
      have hesc : escapeChars ('\x0a' :: cs) ++ '"' :: rest =
          '\\' :: 'n' :: (escapeChars cs ++ '"' :: rest) := by
        simp [escapeChars, escChar]
      rw [hesc, parseStringBody.eq_def]
      simp [unescapeChar, ih]
    by_cases h6 : c = '\x0c'
    · subst h6
      have hesc : escapeChars ('\x0c' :: cs) ++ '"' :: rest =
          '\\' :: 'f' :: (escapeChars cs ++ '"' :: rest) := by
        simp [escapeChars, escChar]
      rw [hesc, parseStringBody.eq_def]
      simp [unescapeChar, ih]
    by_cases h7 : c = '\x0d'
    · subst h7
      have hesc : escapeChars ('\x0d' :: cs) ++ '"' :: rest =
          '\\' :: 'r' :: (escapeChars cs ++ '"' :: rest) := by
        simp [escapeChars, escChar]
      rw [hesc, parseStringBody.eq_def]
      simp [unescapeChar, ih]
    by_cases h8 : c.toNat < 32
    · have hd1 : c.toNat / 16 < 16 := by omega
      have hd2 : c.toNat % 16 < 16 := by omega
      have hesc : escapeChars (c :: cs) ++ '"' :: rest =
          '\\' :: 'u' :: '0' :: '0' :: hexDig (c.toNat / 16) :: hexDig (c.toNat % 16) ::
            (escapeChars cs ++ '"' :: rest) := by
        simp [escapeChars, escChar, h1, h2, h3, h4, h5, h6, h7, h8]
      rw [hesc, parseStringBody.eq_def]
      simp [hexVal_hexDig _ hd1, hexVal_hexDig _ hd2, ih]
      have h0 : hexVal '0' = some 0 := by decide
      rw [h0]
      simp only []
      show some (Char.ofNat (((0 * 16 + 0) * 16 + c.toNat / 16) * 16 + c.toNat % 16) :: cs,
        rest) = some (c :: cs, rest)
      have hmod : ((0 * 16 + 0) * 16 + c.toNat / 16) * 16 + c.toNat % 16 = c.toNat := by omega
      rw [hmod, Char.ofNat_toNat]
    · have hesc : escapeChars (c :: cs) ++ '"' :: rest =
          c :: (escapeChars cs ++ '"' :: rest) := by
        simp [escapeChars, escChar, h1, h2, h3, h4, h5, h6, h7, h8]
      rw [hesc, parseStringBody.eq_def]
      simp [h1, h2, h8, ih]

theorem skipWs_not_ws (c : Char) (cs : List Char) (h : isWsChar c = false) :
    skipWs (c :: cs) = c :: cs := by
  rw [skipWs.eq_def]
  simp [h]

theorem parseVal_encodeStr (g : Nat) (v : String) (rest : List Char) :
    parseVal (g + 1) (encodeStringChars v ++ rest) = some (Json.str v, rest) := by
  have hshape : encodeStringChars v ++ rest = '"' :: (escapeChars v.data ++ '"' :: rest) := by
    simp [encodeStringChars]
  rw [hshape, parseVal.eq_def]
  simp [skipWs_not_ws, isWsChar, parseStringBody_escape]


theorem string_eta (s : String) : String.mk s.data = s := rfl

/-- Round trip for the member list of a flat string-valued object, with any
sufficient fuel. -/
theorem parseObjItems_strObj (ms : List (String × String)) :
    ∀ g rest, ms ≠ [] → ms.length < g →
      parseObjItems g
          (encodeObjItems (ms.map fun kv => (kv.1, Json.str kv.2)) ++ '}' :: rest) =
        some (ms.map fun kv => (kv.1, Json.str kv.2), rest) := by
  induction ms with
  | nil => intro g rest hne; exact absurd rfl hne
  | cons kv tl ih =>
    intro g rest _ hg
    obtain ⟨k, v⟩ := kv
    simp only [List.length_cons] at hg
    obtain ⟨g', rfl⟩ : ∃ g', g = g' + 1 := ⟨g - 1, by omega⟩
    obtain ⟨g'', rfl⟩ : ∃ g'', g' = g'' + 1 := ⟨g' - 1, by omega⟩
    cases tl with
    | nil =>
      have hshape :
          encodeObjItems ([(k, v)].map fun kv => (kv.1, Json.str kv.2)) ++ '}' :: rest =
            '"' :: (escapeChars k.data ++ '"' ::
              (':' :: (encodeStringChars v ++ '}' :: rest))) := by
        simp [encodeObjItems, encodeJson, encodeStringChars]
      rw [hshape, parseObjItems.eq_def]
      simp [skipWs_not_ws, isWsChar, parseStringBody_escape,
        parseVal_encodeStr g'' v ('}' :: rest), string_eta]
    | cons kv2 tl2 =>
      have hshape :
          encodeObjItems (((k, v) :: kv2 :: tl2).map fun kv => (kv.1, Json.str kv.2)) ++
              '}' :: rest =
            '"' :: (escapeChars k.data ++ '"' ::
              (':' :: (encodeStringChars v ++ ',' ::
                (encodeObjItems ((kv2 :: tl2).map fun kv => (kv.1, Json.str kv.2)) ++
                  '}' :: rest)))) := by
        simp [encodeObjItems, encodeJson, encodeStringChars]
      rw [hshape, parseObjItems.eq_def]
      have hrec := ih (g'' + 1) rest (by simp) (by simp only [List.length_cons] at hg ⊢; omega)
      simp only [List.map_cons] at hrec
      simp [skipWs_not_ws, isWsChar, parseStringBody_escape, parseVal_encodeStr,
        hrec, string_eta]

theorem length_le_encodeObjItems (ms : List (String × String)) :
    ms.length ≤ (encodeObjItems (ms.map fun kv => (kv.1, Json.str kv.2))).length := by
  induction ms with
  | nil => simp
  | cons kv tl ih =>
    obtain ⟨k, v⟩ := kv
    cases tl with
    | nil => simp [encodeObjItems, encodeJson, encodeStringChars]
    | cons kv2 tl2 =>
      simp only [List.map_cons, List.length_cons] at ih ⊢
      rw [show encodeObjItems ((k, Json.str v) :: (kv2.1, Json.str kv2.2) ::
          List.map (fun kv => (kv.1, Json.str kv.2)) tl2) =
        encodeStringChars k ++ ':' :: encodeJson (Json.str v) ++ ',' ::
          encodeObjItems ((kv2.1, Json.str kv2.2) ::
            List.map (fun kv => (kv.1, Json.str kv.2)) tl2) from by
        rw [encodeObjItems.eq_def]]
      simp only [List.length_append, List.length_cons]
      omega

theorem encodeObjItems_strObj_cons (k v : String) (ms : List (String × Json)) :
    encodeObjItems ((k, Json.str v) :: ms) =
      '"' :: (escapeChars k.data ++ '"' :: ':' ::
        (encodeStringChars v ++
          (match ms with
           | [] => []
           | _ => ',' :: encodeObjItems ms))) := by
  cases ms with
  | nil => simp [encodeObjItems, encodeJson, encodeStringChars]
  | cons m ms2 =>
    rw [encodeObjItems.eq_def]
    simp [encodeJson, encodeStringChars]

/-- Left-inverse property for the tolerant parser on flat string-valued
objects: parsing the serialization recovers the structure. -/
theorem jsonParse_encode_strObj (ms : List (String × String)) :
    jsonParse (jsonEncode (strObj ms)) = some (strObj ms) := by
  cases ms with
  | nil =>
    show jsonParse (jsonEncode (Json.obj [])) = some (Json.obj [])
    have h1 : jsonEncode (Json.obj []) = String.mk ['{', '}'] := by
      simp [jsonEncode, encodeJson, encodeObjItems]
    rw [h1]
    show (match parseVal ((String.mk ['{', '}']).data.length + 2)
        (String.mk ['{', '}']).data with
      | some (j, rest) => if skipWs rest = [] then some j else none
      | none => none) = some (Json.obj [])
    have h2 : (String.mk ['{', '}']).data.length + 2 = 3 + 1 := rfl
    rw [h2, parseVal.eq_def]
    simp [skipWs, isWsChar]
  | cons kv tl =>
    obtain ⟨k, v⟩ := kv
    have hmm : strObj ((k, v) :: tl) =
        Json.obj ((k, Json.str v) :: (tl.map fun kv => (kv.1, Json.str kv.2))) := by
      simp [strObj]
    rw [hmm]
    have hlen : ((k, v) :: tl).length ≤
        (encodeObjItems ((k, Json.str v) :: (tl.map fun kv => (kv.1, Json.str kv.2)))).length := by
      have := length_le_encodeObjItems ((k, v) :: tl)
      simpa using this
    have hrtrip := parseObjItems_strObj ((k, v) :: tl)
      ((encodeObjItems ((k, Json.str v) :: (tl.map fun kv => (kv.1, Json.str kv.2)))).length + 3)
      [] (by simp) (by omega)
    simp only [List.map_cons] at hrtrip
    have hht := encodeObjItems_strObj_cons k v (tl.map fun kv => (kv.1, Json.str kv.2))
    obtain ⟨t, ht⟩ : ∃ t, encodeObjItems
        ((k, Json.str v) :: (tl.map fun kv => (kv.1, Json.str kv.2))) = '"' :: t :=
      ⟨_, hht⟩
    clear hht hlen hmm
    generalize hgen : (k, Json.str v) :: (tl.map fun kv => (kv.1, Json.str kv.2)) = mm
      at hrtrip ht ⊢
    unfold jsonParse
    have hdata : (jsonEncode (Json.obj mm)).data = '{' :: (encodeObjItems mm ++ ['}']) := by
      show encodeJson (Json.obj mm) = '{' :: (encodeObjItems mm ++ ['}'])
      rw [encodeJson.eq_def]
    rw [hdata]
    have hfuel : ('{' :: (encodeObjItems mm ++ ['}'])).length + 2 =
        ((encodeObjItems mm).length + 3) + 1 := by
      simp [List.length_cons, List.length_append]
    rw [hfuel, parseVal.eq_def]
    rw [ht] at hrtrip ⊢
    simp only [List.cons_append, List.length_cons] at hrtrip ⊢
    simp [skipWs_not_ws, isWsChar, hrtrip, skipWs]

/-- C4: the tolerant decoder applied to the `business_hours` and
`social_links` fields is a left inverse of JSON encoding and is total:
decoding the serialized JSON text of any flat string-valued structure
yields the original structure; any string that fails to parse decodes to
the empty structure (and `decodeField` is a total function, so no input
raises); an already-structured (object) value passes through unchanged. -/
theorem c4_tolerant_decode_round_trip :
    (∀ ms : List (String × String),
        decodeField (Json.str (jsonEncode (strObj ms))) = strObj ms) ∧
    (∀ s : String, jsonParse s = none → decodeField (Json.str s) = Json.obj []) ∧
    (∀ fields : List (String × Json), decodeField (Json.obj fields) = Json.obj fields) := by
  refine ⟨fun ms => ?_, fun s h => ?_, fun fields => ?_⟩
  · simp [decodeField, Json.isString, jsonParse_encode_strObj]
  · simp [decodeField, Json.isString, h]
  · simp [decodeField, Json.isString, Json.truthy]

/-- Witness for C4: a concrete non-JSON input decodes to the empty
structure, via the theorem. -/
theorem c4_tolerant_decode_round_trip_witness :
    jsonParse "oops" = none ∧ decodeField (Json.str "oops") = Json.obj [] := by
  have hnone : jsonParse "oops" = none := by
    have hdata : "oops".data = ['o', 'o', 'p', 's'] := rfl
    unfold jsonParse
    rw [hdata]
    have hfuel : (['o', 'o', 'p', 's'] : List Char).length + 2 = 5 + 1 := rfl
    rw [hfuel, parseVal.eq_def]
    simp [skipWs, isWsChar, parseNumber, parseIntPart]
  exact ⟨hnone, c4_tolerant_decode_round_trip.2.1 "oops" hnone⟩

theorem subscriberCsvRow_spec (sub : LocalSub) :
    subscriberCsvRow sub =
      specCsvRow [sub.email,
        if sub.is_subscribed then "Subscribed" else "Unsubscribed",
        sub.subscribed_at] := by
  simp only [specCsvRow, specQuoted, List.map_cons, List.map_nil,
    String.intercalate, String.intercalate.go, subscriberCsvRow]
  apply String.ext
  simp [String.data_append]

theorem messageCsvRow_spec (msg : AdminMessage) :
    messageCsvRow msg =
      specCsvRow [msg.name, msg.email, msg.subject, msg.message,
        msg.timestamp, msg.status] := by
  simp only [specCsvRow, specQuoted, List.map_cons, List.map_nil,
    String.intercalate, String.intercalate.go, messageCsvRow]
  apply String.ext
  simp [String.data_append]

/-- C5 counterexample: on a one-record list, the export does NOT produce a
newline-terminated data row — the claimed output (header, then the quoted
row followed by a newline) differs from what the code builds, because the
rows are joined with a newline separator and the last row has no trailing
newline. -/
theorem c5_csv_newline_counterexample :
    ¬ (exportSubscribersCsv [⟨"a@b.com", true, "2024-01-01"⟩] =
        specCsvTerminated "Email,Subscription Status,Subscribed Date"
          [specCsvRow ["a@b.com", "Subscribed", "2024-01-01"]]) := by
  decide

/-- C5 (amended): each CSV export produces its fixed header row followed by
one data row per record, rows SEPARATED by newlines (the final row carries
no trailing newline); in each row every field value is wrapped verbatim in
double quotes and the quoted fields are joined by commas, with no escaping
of embedded quote characters — so a comma inside a field value stays
within its quoted boundary. -/
theorem c5_csv_export_format :
    (∀ subs : List LocalSub,
        exportSubscribersCsv subs =
          specCsvSeparated "Email,Subscription Status,Subscribed Date"
            (subs.map fun sub =>
              specCsvRow [sub.email,
                if sub.is_subscribed then "Subscribed" else "Unsubscribed",
                sub.subscribed_at])) ∧
    (∀ msgs : List AdminMessage,
        exportMessagesCsv msgs =
          specCsvSeparated "Name,Email,Subject,Message,Timestamp,Status"
            (msgs.map fun msg =>
              specCsvRow [msg.name, msg.email, msg.subject, msg.message,
                msg.timestamp, msg.status])) := by
  constructor
  · intro subs
    show "Email,Subscription Status,Subscribed Date\n" ++ _ = _
    rw [show ("Email,Subscription Status,Subscribed Date\n" : String) =
      "Email,Subscription Status,Subscribed Date" ++ "\n" from rfl]
    unfold specCsvSeparated
    have hfun : (fun sub : LocalSub =>
        specCsvRow [sub.email,
          if sub.is_subscribed then "Subscribed" else "Unsubscribed",
          sub.subscribed_at]) = subscriberCsvRow := by
      funext sub
      rw [subscriberCsvRow_spec]
    rw [hfun, String.append_assoc]
  · intro msgs
    show "Name,Email,Subject,Message,Timestamp,Status\n" ++ _ = _
    rw [show ("Name,Email,Subject,Message,Timestamp,Status\n" : String) =
      "Name,Email,Subject,Message,Timestamp,Status" ++ "\n" from rfl]
    unfold specCsvSeparated
    have hfun : (fun msg : AdminMessage =>
        specCsvRow [msg.name, msg.email, msg.subject, msg.message,
          msg.timestamp, msg.status]) = messageCsvRow := by
      funext msg
      rw [messageCsvRow_spec]
    rw [hfun, String.append_assoc]

/-- C1 counterexample: subscribing a valid email over an empty state, with
the remote insert failing through the returned error channel (the one
policy rejections use), does NOT fall back to the on-device list: the
submission is lost (nothing is appended anywhere) and a plain failure
toast is raised. -/
theorem c1_fallback_counterexample :
    ¬ ((handleSubscribe "user@example.com" "2024-01-01T00:00:00Z"
          RemoteOutcome.errResult true ⟨[], []⟩).state.localSubs.any
            (fun sub => sub.email == "user@example.com") = true) := by
  decide

/-- C1 (amended): the fallback exists only for the thrown-exception failure
channel.  For every `subscribe` call with an email containing `'@'`: if
the remote insert THROWS, the submission falls back to the on-device list,
appending and persisting the entry when no same-email entry is present;
if the remote insert instead fails through the returned error (as
permission/policy rejections do), the failure is reported and nothing is
stored anywhere. -/
theorem c1_fallback_amended (email now : String) (st : SubscribeState)
    (hat : email.data.contains '@' = true) :
    (st.localSubs.any (fun sub => sub.email == email) = false →
        handleSubscribe email now RemoteOutcome.thrown true st =
          ⟨{ st with localSubs := st.localSubs ++ [⟨email, true, now⟩] },
            SubToast.subscribeLocalSuccess, true⟩) ∧
    handleSubscribe email now RemoteOutcome.errResult true st =
      ⟨st, SubToast.subscribeFailed, true⟩ := by
  have hne : ¬ (email = "") := by
    intro h
    subst h
    simp at hat
  have hat2 : '@' ∈ email.data := by simpa using hat
  constructor
  · intro hnodup
    simp [handleSubscribe, hne, hat2, hnodup]
  · simp [handleSubscribe, hne, hat2]

theorem c1_fallback_amended_witness :
    ("new@example.com" : String).data.contains '@' = true ∧
    ([] : List LocalSub).any (fun sub => sub.email == "new@example.com") = false ∧
    handleSubscribe "new@example.com" "2024-01-01" RemoteOutcome.thrown true ⟨[], []⟩ =
      ⟨⟨[], [⟨"new@example.com", true, "2024-01-01"⟩]⟩,
        SubToast.subscribeLocalSuccess, true⟩ ∧
    handleSubscribe "new@example.com" "2024-01-01" RemoteOutcome.errResult true ⟨[], []⟩ =
      ⟨⟨[], []⟩, SubToast.subscribeFailed, true⟩ :=
  ⟨by decide, by decide,
    (c1_fallback_amended "new@example.com" "2024-01-01" ⟨[], []⟩ (by decide)).1 (by decide),
    (c1_fallback_amended "new@example.com" "2024-01-01" ⟨[], []⟩ (by decide)).2⟩

/-- C2 counterexample: for a valid email present in neither store, a
`subscribe` call whose remote insert fails through the returned error
channel persists NO record at all — not "exactly one". -/
theorem c2_exactly_one_counterexample :
    ¬ (subscribedCount (handleSubscribe "new@example.com" "2024-01-01"
        RemoteOutcome.errResult true ⟨[], []⟩).state "new@example.com" = 1) := by
  decide

/-- C2 (amended): for every valid email present in neither store, a single
`subscribe` call persists AT MOST one record with `is_subscribed = true`,
and never both a remote and a local one: exactly one remote record when
the insert succeeds; exactly one local entry when the insert throws and
local storage works; zero records when the insert fails through the
returned error channel or local storage fails. -/
theorem c2_exactly_one_amended (email now : String) (st : SubscribeState) (localOk : Bool)
    (hat : email.data.contains '@' = true)
    (hr : ∀ r ∈ st.remote, ¬ (r.email = email))
    (hl : ∀ sub ∈ st.localSubs, ¬ (sub.email = email)) :
    ((handleSubscribe email now RemoteOutcome.ok localOk st).state.remote =
        st.remote ++ [⟨email, true, now, none⟩] ∧
      (handleSubscribe email now RemoteOutcome.ok localOk st).state.localSubs =
        st.localSubs ∧
      subscribedCount (handleSubscribe email now RemoteOutcome.ok localOk st).state
        email = 1) ∧
    (handleSubscribe email now RemoteOutcome.errResult localOk st).state = st ∧
    subscribedCount st email = 0 ∧
    ((handleSubscribe email now RemoteOutcome.thrown true st).state.remote = st.remote ∧
      (handleSubscribe email now RemoteOutcome.thrown true st).state.localSubs =
        st.localSubs ++ [⟨email, true, now⟩] ∧
      subscribedCount (handleSubscribe email now RemoteOutcome.thrown true st).state
        email = 1) ∧
    (handleSubscribe email now RemoteOutcome.thrown false st).state = st := by
  have hne : ¬ (email = "") := by
    intro h
    subst h
    simp at hat
  have hat2 : '@' ∈ email.data := by simpa using hat
  have hrf : st.remote.filter (fun r => r.email == email && r.is_subscribed) = [] := by
    rw [List.filter_eq_nil_iff]
    intro r hrmem
    have := hr r hrmem
    simp [this]
  have hlf : st.localSubs.filter (fun sub => sub.email == email && sub.is_subscribed) = [] := by
    rw [List.filter_eq_nil_iff]
    intro sub hsmem
    have := hl sub hsmem
    simp [this]
  have hnodup : st.localSubs.any (fun sub => sub.email == email) = false := by
    rw [List.any_eq_false]
    intro sub hsmem
    have := hl sub hsmem
    simp [this]
  refine ⟨⟨?_, ?_, ?_⟩, ?_, ?_, ⟨?_, ?_, ?_⟩, ?_⟩ <;>
    simp [handleSubscribe, hne, hat2, hnodup, subscribedCount, List.filter_append, hrf, hlf]

theorem c2_exactly_one_amended_witness :
    ("new@example.com" : String).data.contains '@' = true ∧
    subscribedCount
      (handleSubscribe "new@example.com" "2024-01-01"
        RemoteOutcome.ok true ⟨[], []⟩).state "new@example.com" = 1 ∧
    (handleSubscribe "new@example.com" "2024-01-01"
        RemoteOutcome.errResult true ⟨[], []⟩).state = ⟨[], []⟩ ∧
    subscribedCount
      (handleSubscribe "new@example.com" "2024-01-01"
        RemoteOutcome.thrown true ⟨[], []⟩).state "new@example.com" = 1 :=
  ⟨by decide,
    (c2_exactly_one_amended "new@example.com" "2024-01-01" ⟨[], []⟩ true (by decide)
      (by intro r h; cases h) (by intro s h; cases h)).1.2.2,
    (c2_exactly_one_amended "new@example.com" "2024-01-01" ⟨[], []⟩ true (by decide)
      (by intro r h; cases h) (by intro s h; cases h)).2.1,
    (c2_exactly_one_amended "new@example.com" "2024-01-01" ⟨[], []⟩ true (by decide)
      (by intro r h; cases h) (by intro s h; cases h)).2.2.2.1.2.2⟩

/-- C3 counterexample: with the email already present in the local fallback
list, a remote failure through the returned error channel — the one
policy rejections use — produces the generic "Failed to subscribe" toast,
NOT the "already subscribed" outcome the claim requires of every failing
remote. -/
theorem c3_already_subscribed_counterexample :
    ¬ ((handleSubscribe "old@example.com" "2024-02-02" RemoteOutcome.errResult true
          ⟨[], [⟨"old@example.com", true, "2024-01-01"⟩]⟩).toast =
        SubToast.alreadySubscribed) := by
  decide

/-- C3 (amended): re-subscribing an email (containing `'@'`) already
present in the on-device fallback list leaves both stores — in particular
the local list — completely unchanged in either remote-failure mode: no
duplicate entry is appended and no existing entry is modified.  The
"already subscribed" outcome is reported when the remote insert throws
(the failing mode that reaches the fallback code); when the remote insert
fails through the returned error channel instead, a generic failure toast
is reported, with the list likewise unchanged. -/
theorem c3_already_subscribed_amended (email now : String) (st : SubscribeState)
    (hat : email.data.contains '@' = true)
    (hmem : st.localSubs.any (fun sub => sub.email == email) = true) :
    handleSubscribe email now RemoteOutcome.thrown true st =
        ⟨st, SubToast.alreadySubscribed, true⟩ ∧
    handleSubscribe email now RemoteOutcome.errResult true st =
        ⟨st, SubToast.subscribeFailed, true⟩ := by
  have hne : ¬ (email = "") := by
    intro h
    subst h
    simp at hat
  have hat2 : '@' ∈ email.data := by simpa using hat
  constructor <;> simp [handleSubscribe, hne, hat2, hmem]

theorem c3_already_subscribed_amended_witness :
    handleSubscribe "old@example.com" "2024-02-02" RemoteOutcome.thrown true
        ⟨[], [⟨"old@example.com", true, "2024-01-01"⟩]⟩ =
      ⟨⟨[], [⟨"old@example.com", true, "2024-01-01"⟩]⟩,
        SubToast.alreadySubscribed, true⟩ ∧
    handleSubscribe "old@example.com" "2024-02-02" RemoteOutcome.errResult true
        ⟨[], [⟨"old@example.com", true, "2024-01-01"⟩]⟩ =
      ⟨⟨[], [⟨"old@example.com", true, "2024-01-01"⟩]⟩,
        SubToast.subscribeFailed, true⟩ :=
  ⟨(c3_already_subscribed_amended "old@example.com" "2024-02-02"
      ⟨[], [⟨"old@example.com", true, "2024-01-01"⟩]⟩ (by decide) (by decide)).1,
    (c3_already_subscribed_amended "old@example.com" "2024-02-02"
      ⟨[], [⟨"old@example.com", true, "2024-01-01"⟩]⟩ (by decide) (by decide)).2⟩

/-- C8: `subscribe` validation.  An email that is empty or lacks `'@'`
produces the invalid-email toast immediately, with no remote attempt and
both stores untouched; an email containing `'@'` always reaches the
remote insert attempt. -/
theorem c8_subscribe_validation :
    (∀ (email now : String) (outcome : RemoteOutcome) (localOk : Bool)
        (st : SubscribeState), email.data.contains '@' = false →
      handleSubscribe email now outcome localOk st =
        ⟨st, SubToast.invalidEmail, false⟩) ∧
    (∀ (email now : String) (outcome : RemoteOutcome) (localOk : Bool)
        (st : SubscribeState), email.data.contains '@' = true →
      (handleSubscribe email now outcome localOk st).remoteAttempted = true) := by
  constructor
  · intro email now outcome localOk st h
    have h2 : ¬ ('@' ∈ email.data) := by simpa using h
    simp [handleSubscribe, h2]
  · intro email now outcome localOk st h
    have h2 : '@' ∈ email.data := by simpa using h
    have hne : ¬ (email = "") := by
      intro he
      subst he
      simp at h2
    cases outcome <;> cases localOk
    all_goals try simp [handleSubscribe, hne, h2]
    all_goals try (split <;> rfl)

theorem c8_subscribe_validation_witness :
    ("not-an-email" : String).data.contains '@' = false ∧
    handleSubscribe "not-an-email" "2024-01-01" RemoteOutcome.ok true ⟨[], []⟩ =
      ⟨⟨[], []⟩, SubToast.invalidEmail, false⟩ ∧
    ("a@b.com" : String).data.contains '@' = true ∧
    (handleSubscribe "a@b.com" "2024-01-01" RemoteOutcome.ok true
      ⟨[], []⟩).remoteAttempted = true :=
  ⟨by decide,
    c8_subscribe_validation.1 "not-an-email" "2024-01-01" RemoteOutcome.ok true
      ⟨[], []⟩ (by decide),
    by decide,
    c8_subscribe_validation.2 "a@b.com" "2024-01-01" RemoteOutcome.ok true
      ⟨[], []⟩ (by decide)⟩

/-- C7: contact-form validation.  An empty name, email or message produces
the missing-information toast with no remote attempt (and no state
change); the remote insert is attempted exactly when all three are
non-empty and the email contains `'@'`.  This holds for the News-page
handler and for the About-page handler (whose name is the trimmed
first/last combination). -/
theorem c7_contact_validation :
    (∀ (name email message : String) (outcome : RemoteOutcome) (st : ContactState),
      (name = "" ∨ email = "" ∨ message = "") →
        handleContactSubmit name email message outcome st =
          ⟨st, ContactToast.missingInformation, false⟩) ∧
    (∀ (name email message : String) (outcome : RemoteOutcome) (st : ContactState),
      (handleContactSubmit name email message outcome st).remoteAttempted = true ↔
        (¬ name = "" ∧ ¬ email = "" ∧ ¬ message = "" ∧
          email.data.contains '@' = true)) ∧
    (∀ (firstName lastName email message : String) (outcome : RemoteOutcome)
        (st : ContactState),
      (jsTrim (firstName ++ " " ++ lastName) = "" ∨ email = "" ∨ message = "") →
        handleContactSubmitAbout firstName lastName email message outcome st =
          ⟨st, ContactToast.missingInformation, false⟩) := by
  have hmain : ∀ (name email message : String) (outcome : RemoteOutcome)
      (st : ContactState),
      (name = "" ∨ email = "" ∨ message = "") →
        handleContactSubmit name email message outcome st =
          ⟨st, ContactToast.missingInformation, false⟩ := by
    intro name email message outcome st h
    rcases h with h | h | h <;> simp [handleContactSubmit, h]
  refine ⟨hmain, ?_, ?_⟩
  · intro name email message outcome st
    by_cases h1 : name = ""
    · rw [hmain name email message outcome st (Or.inl h1)]
      simp [h1]
    by_cases h2 : email = ""
    · rw [hmain name email message outcome st (Or.inr (Or.inl h2))]
      simp [h2]
    by_cases h3 : message = ""
    · rw [hmain name email message outcome st (Or.inr (Or.inr h3))]
      simp [h3]
    by_cases h4 : '@' ∈ email.data
    · cases outcome <;> simp [handleContactSubmit, h1, h2, h3, h4]
    · have h4' : email.data.contains '@' = false := by simpa using h4
      simp [handleContactSubmit, h1, h2, h3, h4, h4']
  · intro firstName lastName email message outcome st h
    exact hmain _ email message outcome st h

theorem c7_contact_validation_witness :
    handleContactSubmit "" "a@b.com" "hello" RemoteOutcome.ok ⟨[], []⟩ =
      ⟨⟨[], []⟩, ContactToast.missingInformation, false⟩ ∧
    ((handleContactSubmit "Ann" "a@b.com" "hello" RemoteOutcome.ok
        ⟨[], []⟩).remoteAttempted = true ↔
      (¬ ("Ann" : String) = "" ∧ ¬ ("a@b.com" : String) = "" ∧
        ¬ ("hello" : String) = "" ∧ ("a@b.com" : String).data.contains '@' = true)) ∧
    handleContactSubmitAbout " " "" "a@b.com" "hello" RemoteOutcome.ok ⟨[], []⟩ =
      ⟨⟨[], []⟩, ContactToast.missingInformation, false⟩ :=
  ⟨c7_contact_validation.1 "" "a@b.com" "hello" RemoteOutcome.ok ⟨[], []⟩ (Or.inl rfl),
    c7_contact_validation.2.1 "Ann" "a@b.com" "hello" RemoteOutcome.ok ⟨[], []⟩,
    c7_contact_validation.2.2 " " "" "a@b.com" "hello" RemoteOutcome.ok ⟨[], []⟩
      (Or.inl (by decide))⟩

/-- C9: in the dedicated-table generation, a contact submission whose
remote insert fails — through either failure channel — produces a
destructive (error-variant) toast and writes nothing: the remote
`contact_messages` table and the on-device message list are both left
exactly as they were. -/
theorem c9_contact_no_fallback (name email message : String) (st : ContactState)
    (h1 : ¬ name = "") (h2 : ¬ email = "") (h3 : ¬ message = "")
    (h4 : email.data.contains '@' = true) :
    handleContactSubmit name email message RemoteOutcome.errResult st =
        ⟨st, ContactToast.sendFailed, true⟩ ∧
    handleContactSubmit name email message RemoteOutcome.thrown st =
        ⟨st, ContactToast.savedLocalNotice, true⟩ ∧
    ContactToast.sendFailed.isErrorVariant = true ∧
    ContactToast.savedLocalNotice.isErrorVariant = true := by
  have h4' : '@' ∈ email.data := by simpa using h4
  refine ⟨?_, ?_, rfl, rfl⟩ <;> simp [handleContactSubmit, h1, h2, h3, h4']

theorem c9_contact_no_fallback_witness :
    handleContactSubmit "Ann" "a@b.com" "hello" RemoteOutcome.errResult
        ⟨[⟨"Bo", "b@c.com", "hi"⟩], []⟩ =
      ⟨⟨[⟨"Bo", "b@c.com", "hi"⟩], []⟩, ContactToast.sendFailed, true⟩ ∧
    handleContactSubmit "Ann" "a@b.com" "hello" RemoteOutcome.thrown
        ⟨[⟨"Bo", "b@c.com", "hi"⟩], []⟩ =
      ⟨⟨[⟨"Bo", "b@c.com", "hi"⟩], []⟩, ContactToast.savedLocalNotice, true⟩ :=
  ⟨(c9_contact_no_fallback "Ann" "a@b.com" "hello" ⟨[⟨"Bo", "b@c.com", "hi"⟩], []⟩
      (by decide) (by decide) (by decide) (by decide)).1,
    (c9_contact_no_fallback "Ann" "a@b.com" "hello" ⟨[⟨"Bo", "b@c.com", "hi"⟩], []⟩
      (by decide) (by decide) (by decide) (by decide)).2.1⟩

theorem mlookup_setStatusRead_other (m : List (String × Json)) (k : String)
    (hk : ¬ k = "status") :
    mlookup (setStatusRead m) k = mlookup m k := by
  by_cases h : (m.any fun kv => kv.1 == "status") = true
  · have hform : setStatusRead m =
        m.map fun kv => if kv.1 == "status" then (kv.1, Json.str "read") else kv := by
      unfold setStatusRead
      rw [if_pos h]
    rw [hform]
    unfold mlookup
    rw [List.find?_map]
    have hp : ((fun kv : String × Json => kv.1 == k) ∘
        fun kv => if kv.1 == "status" then (kv.1, Json.str "read") else kv) =
          fun kv : String × Json => kv.1 == k := by
      funext kv
      simp only [Function.comp]
      by_cases hkv : (kv.1 == "status") = true <;> simp [hkv]
    rw [hp]
    cases hfind : m.find? (fun kv => kv.1 == k) with
    | none => rfl
    | some kv =>
      have hkv : (kv.1 == k) = true :=
        List.find?_some (p := fun kv : String × Json => kv.1 == k) hfind
      have hkv' : kv.1 = k := by simpa using hkv
      have hns : ¬ kv.1 = "status" := by
        rw [hkv']
        exact hk
      simp [hns]
  · have hform : setStatusRead m = m ++ [("status", Json.str "read")] := by
      unfold setStatusRead
      rw [if_neg h]
    rw [hform]
    unfold mlookup
    rw [List.find?_append]
    cases hfind : m.find? (fun kv => kv.1 == k) with
    | some kv => rfl
    | none =>
      have hlast : List.find? (fun kv : String × Json => kv.1 == k)
          [("status", Json.str "read")] = none := by
        rw [List.find?_eq_none]
        intro x hx
        simp at hx
        subst hx
        simp
        intro hcon
        exact hk hcon.symm
      rw [hlast]
      rfl

theorem mlookup_setStatusRead_status (m : List (String × Json)) :
    mlookup (setStatusRead m) "status" = some (Json.str "read") := by
  by_cases h : (m.any fun kv => kv.1 == "status") = true
  · have hform : setStatusRead m =
        m.map fun kv => if kv.1 == "status" then (kv.1, Json.str "read") else kv := by
      unfold setStatusRead
      rw [if_pos h]
    rw [hform]
    unfold mlookup
    rw [List.find?_map]
    have hp : ((fun kv : String × Json => kv.1 == "status") ∘
        fun kv => if kv.1 == "status" then (kv.1, Json.str "read") else kv) =
          fun kv : String × Json => kv.1 == "status" := by
      funext kv
      simp only [Function.comp]
      by_cases hkv : (kv.1 == "status") = true <;> simp [hkv]
    rw [hp]
    rcases List.any_eq_true.mp h with ⟨x, hx, hpx⟩
    have hsome : (m.find? fun kv : String × Json => kv.1 == "status").isSome = true :=
      List.find?_isSome.mpr ⟨x, hx, hpx⟩
    obtain ⟨kv, hkv⟩ := Option.isSome_iff_exists.mp hsome
    rw [hkv]
    have hkv1 : (kv.1 == "status") = true :=
      List.find?_some (p := fun kv : String × Json => kv.1 == "status") hkv
    have hkv1' : kv.1 = "status" := by simpa using hkv1
    simp [hkv1']
  · have hform : setStatusRead m = m ++ [("status", Json.str "read")] := by
      unfold setStatusRead
      rw [if_neg h]
    rw [hform]
    unfold mlookup
    rw [List.find?_append]
    have hnone : m.find? (fun kv : String × Json => kv.1 == "status") = none := by
      rw [List.find?_eq_none]
      intro x hx hpx
      exact h (List.any_eq_true.mpr ⟨x, hx, hpx⟩)
    rw [hnone]
    rfl

/-- C6: `markAsRead` is a frame-preserving read-modify-write.  On any
failure (invalid key data, fetch error — including `.single()` finding
zero or several rows —, missing/non-object metadata, or update error) the
stored collection is left unchanged.  On success there is a metadata bag
`m` (the one carried by every matching row) such that the new collection
only rewrites matching rows' metadata to the spread-with-override bag, in
which the `"status"` key reads `"read"` and every other key reads exactly
what it read before; all other rows and all other columns are untouched. -/
theorem c6_mark_as_read_frame (db : List MsRow) (email ts : String) (fe ue : Bool) :
    ((markAsRead db email ts fe ue).2 ≠ MarkResult.success →
      (markAsRead db email ts fe ue).1 = db) ∧
    ((markAsRead db email ts fe ue).2 = MarkResult.success →
      ∃ m, (∀ r ∈ db, matchesKey r email ts = true → r.metadata = some (Json.obj m)) ∧
        (markAsRead db email ts fe ue).1 =
          (db.map fun r => if matchesKey r email ts then
            { r with metadata := some (Json.obj (setStatusRead m)) } else r) ∧
        mlookup (setStatusRead m) "status" = some (Json.str "read") ∧
        (∀ k, ¬ k = "status" → mlookup (setStatusRead m) k = mlookup m k)) := by
  unfold markAsRead
  split
  · exact ⟨fun _ => rfl, fun hcon => absurd hcon (by simp)⟩
  · split
    · exact ⟨fun _ => rfl, fun hcon => absurd hcon (by simp)⟩
    · split
      · next row heq =>
        split
        · next m hmeta =>
          split
          · exact ⟨fun _ => rfl, fun hcon => absurd hcon (by simp)⟩
          · refine ⟨fun hns => absurd rfl hns,
              fun _ => ⟨m, ?_, rfl, mlookup_setStatusRead_status m,
                fun k hk => mlookup_setStatusRead_other m k hk⟩⟩
            intro r hr hmatch
            have hrf : r ∈ db.filter (fun r => matchesKey r email ts) :=
              List.mem_filter.mpr ⟨hr, hmatch⟩
            rw [heq] at hrf
            simp at hrf
            rw [hrf, hmeta]
        · exact ⟨fun _ => rfl, fun hcon => absurd hcon (by simp)⟩
      · exact ⟨fun _ => rfl, fun hcon => absurd hcon (by simp)⟩

theorem c6_mark_as_read_frame_witness :
    (markAsRead [⟨"a@b.com", false, "t1",
        some (Json.obj [("type", Json.str "contact_form"),
          ("name", Json.str "Ann"), ("custom", Json.str "keep-me")])⟩]
        "" "t1" false false).1 =
      [⟨"a@b.com", false, "t1",
        some (Json.obj [("type", Json.str "contact_form"),
          ("name", Json.str "Ann"), ("custom", Json.str "keep-me")])⟩] ∧
    (∃ m, (∀ r ∈ [(⟨"a@b.com", false, "t1",
            some (Json.obj [("type", Json.str "contact_form"),
              ("name", Json.str "Ann"), ("custom", Json.str "keep-me")])⟩ : MsRow)],
          matchesKey r "a@b.com" "t1" = true → r.metadata = some (Json.obj m)) ∧
        (markAsRead [⟨"a@b.com", false, "t1",
            some (Json.obj [("type", Json.str "contact_form"),
              ("name", Json.str "Ann"), ("custom", Json.str "keep-me")])⟩]
            "a@b.com" "t1" false false).1 =
          ([(⟨"a@b.com", false, "t1",
              some (Json.obj [("type", Json.str "contact_form"),
                ("name", Json.str "Ann"), ("custom", Json.str "keep-me")])⟩ : MsRow)].map
            fun r => if matchesKey r "a@b.com" "t1" then
              { r with metadata := some (Json.obj (setStatusRead
                  [("type", Json.str "contact_form"), ("name", Json.str "Ann"),
                    ("custom", Json.str "keep-me")])) } else r) ∧
        mlookup (setStatusRead m) "status" = some (Json.str "read") ∧
        (∀ k, ¬ k = "status" → mlookup (setStatusRead m) k = mlookup m k)) := by
  constructor
  · exact (c6_mark_as_read_frame
      [⟨"a@b.com", false, "t1",
        some (Json.obj [("type", Json.str "contact_form"),
          ("name", Json.str "Ann"), ("custom", Json.str "keep-me")])⟩]
      "" "t1" false false).1 (by decide)
  · obtain ⟨m, hall, hmap, hstatus, hother⟩ := (c6_mark_as_read_frame
      [⟨"a@b.com", false, "t1",
        some (Json.obj [("type", Json.str "contact_form"),
          ("name", Json.str "Ann"), ("custom", Json.str "keep-me")])⟩]
      "a@b.com" "t1" false false).2 (by rfl)
    have hm : m = [("type", Json.str "contact_form"), ("name", Json.str "Ann"),
        ("custom", Json.str "keep-me")] := by
      have := hall ⟨"a@b.com", false, "t1",
        some (Json.obj [("type", Json.str "contact_form"),
          ("name", Json.str "Ann"), ("custom", Json.str "keep-me")])⟩
        (by simp) (by rfl)
      injection this with h1
      injection h1 with h2
      exact h2.symm
    subst hm
    exact ⟨_, hall, hmap, hstatus, hother⟩

/-- C10: `deleteSubscriber` deletes remote records keyed by email alone.
A successful delete leaves exactly the rows whose email differs from the
subscriber's: every row with that email is removed regardless of its
`is_subscribed` flag or metadata — in the metadata-bag generation this
includes contact-form message rows sharing the email — and every other
row is kept.  A delete that fails with a returned error leaves the
collection unchanged. -/
theorem c10_delete_by_email_only (db : List MsRow) (subscriberEmail : String) :
    (deleteSubscriber db subscriberEmail false).1 =
        db.filter (fun r => !(r.email == subscriberEmail)) ∧
    (deleteSubscriber db subscriberEmail false).2 = true ∧
    (∀ r ∈ db, r.email = subscriberEmail →
      r ∉ (deleteSubscriber db subscriberEmail false).1) ∧
    (∀ r ∈ db, ¬ r.email = subscriberEmail →
      r ∈ (deleteSubscriber db subscriberEmail false).1) ∧
    (deleteSubscriber db subscriberEmail true).1 = db := by
  refine ⟨rfl, rfl, ?_, ?_, rfl⟩
  · intro r hr heq hmem
    simp [deleteSubscriber, List.mem_filter, heq] at hmem
  · intro r hr hne
    simp [deleteSubscriber, List.mem_filter, hr, hne]

theorem c10_delete_by_email_only_witness :
    (⟨"x@y.com", false, "t2",
        some (Json.obj [("type", Json.str "contact_form")])⟩ : MsRow) ∈
      [(⟨"x@y.com", true, "t1", none⟩ : MsRow),
        ⟨"x@y.com", false, "t2", some (Json.obj [("type", Json.str "contact_form")])⟩,
        ⟨"other@z.com", true, "t3", none⟩] ∧
    (⟨"x@y.com", false, "t2",
        some (Json.obj [("type", Json.str "contact_form")])⟩ : MsRow) ∉
      (deleteSubscriber
        [⟨"x@y.com", true, "t1", none⟩,
          ⟨"x@y.com", false, "t2", some (Json.obj [("type", Json.str "contact_form")])⟩,
          ⟨"other@z.com", true, "t3", none⟩] "x@y.com" false).1 ∧
    (⟨"other@z.com", true, "t3", none⟩ : MsRow) ∈
      (deleteSubscriber
        [⟨"x@y.com", true, "t1", none⟩,
          ⟨"x@y.com", false, "t2", some (Json.obj [("type", Json.str "contact_form")])⟩,
          ⟨"other@z.com", true, "t3", none⟩] "x@y.com" false).1 := by
  have hmem2 : (⟨"x@y.com", false, "t2",
      some (Json.obj [("type", Json.str "contact_form")])⟩ : MsRow) ∈
      [(⟨"x@y.com", true, "t1", none⟩ : MsRow),
        ⟨"x@y.com", false, "t2", some (Json.obj [("type", Json.str "contact_form")])⟩,
        ⟨"other@z.com", true, "t3", none⟩] :=
    List.mem_cons_of_mem _ (List.mem_cons_self _ _)
  have hmem3 : (⟨"other@z.com", true, "t3", none⟩ : MsRow) ∈
      [(⟨"x@y.com", true, "t1", none⟩ : MsRow),
        ⟨"x@y.com", false, "t2", some (Json.obj [("type", Json.str "contact_form")])⟩,
        ⟨"other@z.com", true, "t3", none⟩] :=
    List.mem_cons_of_mem _ (List.mem_cons_of_mem _ (List.mem_cons_self _ _))
  refine ⟨hmem2, ?_, ?_⟩
  · exact (c10_delete_by_email_only
      [⟨"x@y.com", true, "t1", none⟩,
        ⟨"x@y.com", false, "t2", some (Json.obj [("type", Json.str "contact_form")])⟩,
        ⟨"other@z.com", true, "t3", none⟩] "x@y.com").2.2.1 _ hmem2 rfl
  · exact (c10_delete_by_email_only
      [⟨"x@y.com", true, "t1", none⟩,
        ⟨"x@y.com", false, "t2", some (Json.obj [("type", Json.str "contact_form")])⟩,
        ⟨"other@z.com", true, "t3", none⟩] "x@y.com").2.2.2.1 _ hmem3 (by simp)
